import Mathlib

/-!
Verification of the focus-detection-and-bounded-projection pipeline of
`automatic-z-projections/z-projection_v2.py` (class `ImageProjector`).

The embedding follows the source:
* images are nested lists of natural-number intensities
  (`Plane` = Y rows of X pixels, `Volume` = Z planes, `Acquisition` = T volumes);
* Python integers are `Int`; unsigned 16-bit numpy accumulation is explicit
  wrapping addition `% 65536`;
* fallible code paths (a raised exception inside `process_tiff_file`) are
  `Except String`.
-/

abbrev Plane : Type := List (List ℕ)

abbrev Volume : Type := List Plane

abbrev Acquisition : Type := List Volume

/-- Embedding of `ImageProjector.calculate_projection_range` (z-projection_v2.py,
lines 69-93).  `z_range` is the configured half-width (`self.z_range`), `best_z`
the best-focus index, `total_z` the depth.  Mirrors the Python body:

    start = best_z - self.z_range
    stop = best_z + self.z_range + 1
    n_slices = 2 * self.z_range + 1
    if start < 0:
        start = 0
        stop = min(n_slices, total_z)
    elif stop > total_z:
        start = max(0, total_z - n_slices)
        stop = total_z
    return start, stop, n_slices
-/
def calculate_projection_range (z_range best_z total_z : ℤ) : ℤ × ℤ × ℤ :=
  let start := best_z - z_range
  let stop := best_z + z_range + 1
  let n_slices := 2 * z_range + 1
  if start < 0 then
    (0, min n_slices total_z, n_slices)
  else if stop > total_z then
    (max 0 (total_z - n_slices), total_z, n_slices)
  else
    (start, stop, n_slices)

/-- Helper: the range returned by `calculate_projection_range` is a valid
nonempty window inside `[0, total_z]` whenever `0 ≤ best_z < total_z` and the
half-width is non-negative. -/
theorem calcRange_bounds (z_range best_z total_z : ℤ)
    (hz : 0 ≤ z_range) (hb0 : 0 ≤ best_z) (hbt : best_z < total_z) :
    0 ≤ (calculate_projection_range z_range best_z total_z).1 ∧
    (calculate_projection_range z_range best_z total_z).1 <
      (calculate_projection_range z_range best_z total_z).2.1 ∧
    (calculate_projection_range z_range best_z total_z).2.1 ≤ total_z := by
  unfold calculate_projection_range
  simp only [min_def, max_def]
  split_ifs <;> dsimp only <;> refine ⟨by omega, by omega, by omega⟩

/-- Helper: the third component returned by `calculate_projection_range` is
always the requested window size `2 * z_range + 1`, whatever branch fires. -/
theorem calcRange_n_slices (z_range best_z total_z : ℤ) :
    (calculate_projection_range z_range best_z total_z).2.2 = 2 * z_range + 1 := by
  unfold calculate_projection_range
  simp only [min_def, max_def]
  split_ifs <;> rfl

/-- Claim C1: for every call of the range selector with `0 ≤ best_z < total_z`
and half-width `z_range ≥ 0`, the returned pair satisfies
`0 ≤ start < stop ≤ total_z`. -/
theorem claim_range_invariant (z_range best_z total_z : ℤ)
    (hz : 0 ≤ z_range) (hb0 : 0 ≤ best_z) (hbt : best_z < total_z) :
    0 ≤ (calculate_projection_range z_range best_z total_z).1 ∧
    (calculate_projection_range z_range best_z total_z).1 <
      (calculate_projection_range z_range best_z total_z).2.1 ∧
    (calculate_projection_range z_range best_z total_z).2.1 ≤ total_z :=
  calcRange_bounds z_range best_z total_z hz hb0 hbt

/-- Witness for C1 at `z_range = 1`, `best_z = 2`, `total_z = 5`. -/
theorem claim_range_invariant_witness :
    (0 : ℤ) ≤ 1 ∧ (0 : ℤ) ≤ 2 ∧ (2 : ℤ) < 5 ∧
    (0 ≤ (calculate_projection_range 1 2 5).1 ∧
     (calculate_projection_range 1 2 5).1 < (calculate_projection_range 1 2 5).2.1 ∧
     (calculate_projection_range 1 2 5).2.1 ≤ 5) :=
  ⟨by decide, by decide, by decide,
    claim_range_invariant 1 2 5 (by decide) (by decide) (by decide)⟩

/-- Counterexample to claim C2 as stated: at `best_z = 0`, `total_z = 5`,
half-width `1`, the code returns `stop = 3` (the window keeps the requested
size 3 and slides forward from 0), not `stop = 2`. -/
theorem claim_boundary_low_counterexample :
    calculate_projection_range 1 0 5 = (0, 3, 3) ∧ ((3 : ℤ) ≠ 2) := by
  constructor
  · decide
  · decide

/-- Claim C2 (amended): `calculate_projection_range` at `best_z = 0`,
`total_z = 5`, half-width `1` returns `start = 0` and `stop = 3`: the
window of requested size 3 slides forward from 0. -/
theorem claim_boundary_low :
    calculate_projection_range 1 0 5 = (0, 3, 3) := by
  decide

/-- Counterexample to claim C3 as stated: at `best_z = 4`, `total_z = 5`,
half-width `1`, the code returns `start = 2` (the window keeps the requested
size 3 and slides backward from the end), not `start = 3`. -/
theorem claim_boundary_high_counterexample :
    calculate_projection_range 1 4 5 = (2, 5, 3) ∧ ((2 : ℤ) ≠ 3) := by
  constructor
  · decide
  · decide

/-- Claim C3 (amended): `calculate_projection_range` at `best_z = 4`,
`total_z = 5`, half-width `1` returns `start = 2` and `stop = 5`: the
window of requested size 3 slides backward from the end. -/
theorem claim_boundary_high :
    calculate_projection_range 1 4 5 = (2, 5, 3) := by
  decide

/-- Claim C5: when `0 ≤ best_z < total_z`, the depth is at least the window
size `2 * z_range + 1`, and `best_z` is at least `z_range` away from both
boundaries, the returned range satisfies `stop - start = 2 * z_range + 1`
exactly (the unmodified symmetric window). -/
theorem claim_symmetric_window_size (z_range best_z total_z : ℤ)
    (hb0 : 0 ≤ best_z) (hbt : best_z < total_z)
    (hw : 2 * z_range + 1 ≤ total_z)
    (hlo : z_range ≤ best_z) (hhi : best_z ≤ total_z - z_range - 1) :
    (calculate_projection_range z_range best_z total_z).2.1 -
      (calculate_projection_range z_range best_z total_z).1 = 2 * z_range + 1 := by
  unfold calculate_projection_range
  simp only [min_def, max_def]
  split_ifs <;> dsimp only <;> omega

/-- Witness for C5 at `z_range = 1`, `best_z = 2`, `total_z = 5`. -/
theorem claim_symmetric_window_size_witness :
    (0 : ℤ) ≤ 2 ∧ (2 : ℤ) < 5 ∧ (2 * 1 + 1 : ℤ) ≤ 5 ∧ (1 : ℤ) ≤ 2 ∧
    (2 : ℤ) ≤ 5 - 1 - 1 ∧
    (calculate_projection_range 1 2 5).2.1 -
      (calculate_projection_range 1 2 5).1 = 2 * 1 + 1 :=
  ⟨by decide, by decide, by decide, by decide, by decide,
    claim_symmetric_window_size 1 2 5 (by decide) (by decide) (by decide)
      (by decide) (by decide)⟩

/-- Claim C9: for `0 ≤ best_z < total_z` exactly one of the three cases of
`calculate_projection_range` determines the result.  The start-underflow and
stop-overflow conditions cannot both hold when the window fits the depth; and
when the window exceeds the depth, the result equals that of the
start-underflow clamp `(0, min window_size total_z)`. -/
theorem claim_branch_exclusivity (z_range best_z total_z : ℤ)
    (hb0 : 0 ≤ best_z) (hbt : best_z < total_z) :
    (2 * z_range + 1 ≤ total_z →
      ¬(best_z - z_range < 0 ∧ total_z < best_z + z_range + 1)) ∧
    (total_z < 2 * z_range + 1 →
      calculate_projection_range z_range best_z total_z =
        (0, min (2 * z_range + 1) total_z, 2 * z_range + 1)) ∧
    (best_z - z_range < 0 →
      calculate_projection_range z_range best_z total_z =
        (0, min (2 * z_range + 1) total_z, 2 * z_range + 1)) ∧
    (¬best_z - z_range < 0 → total_z < best_z + z_range + 1 →
      calculate_projection_range z_range best_z total_z =
        (max 0 (total_z - (2 * z_range + 1)), total_z, 2 * z_range + 1)) ∧
    (¬best_z - z_range < 0 → ¬total_z < best_z + z_range + 1 →
      calculate_projection_range z_range best_z total_z =
        (best_z - z_range, best_z + z_range + 1, 2 * z_range + 1)) := by
  refine ⟨?_, ?_, ?_, ?_, ?_⟩
  · intro hfit ⟨h1, h2⟩
    omega
  · intro hbig
    unfold calculate_projection_range
    simp only [min_def, max_def]
    split_ifs <;> simp_all <;> omega
  · intro h1
    unfold calculate_projection_range
    simp only []
    rw [if_pos h1]
  · intro h1 h2
    unfold calculate_projection_range
    simp only []
    rw [if_neg h1, if_pos h2]
  · intro h1 h2
    unfold calculate_projection_range
    simp only []
    rw [if_neg h1, if_neg h2]

/-- Witness for C9 at `z_range = 1`, `best_z = 0`, `total_z = 5`. -/
theorem claim_branch_exclusivity_witness :
    (0 : ℤ) ≤ 0 ∧ (0 : ℤ) < 5 ∧
    ((2 * 1 + 1 ≤ (5 : ℤ) → ¬((0 : ℤ) - 1 < 0 ∧ (5 : ℤ) < 0 + 1 + 1)) ∧
     ((5 : ℤ) < 2 * 1 + 1 →
       calculate_projection_range 1 0 5 = (0, min (2 * 1 + 1) 5, 2 * 1 + 1)) ∧
     ((0 : ℤ) - 1 < 0 →
       calculate_projection_range 1 0 5 = (0, min (2 * 1 + 1) 5, 2 * 1 + 1)) ∧
     (¬(0 : ℤ) - 1 < 0 → (5 : ℤ) < 0 + 1 + 1 →
       calculate_projection_range 1 0 5 = (max 0 (5 - (2 * 1 + 1)), 5, 2 * 1 + 1)) ∧
     (¬(0 : ℤ) - 1 < 0 → ¬(5 : ℤ) < 0 + 1 + 1 →
       calculate_projection_range 1 0 5 = (0 - 1, 0 + 1 + 1, 2 * 1 + 1))) :=
  ⟨by decide, by decide, claim_branch_exclusivity 1 0 5 (by decide) (by decide)⟩

/-- Wrapping 16-bit unsigned addition: one step of the uint16 accumulation
that `np.mean(image_stack, axis=0, dtype=np.uint16)` performs. -/
def u16add (a b : ℕ) : ℕ := (a + b) % 65536

/-- The column of intensities across the depth axis at pixel `(y, x)` of a
stack: the values the axis-0 reduction combines. -/
def pixelColumn (image_stack : Volume) (y x : ℕ) : List ℕ :=
  image_stack.map (fun s => (s.getD y []).getD x 0)

/-- Embedding of `np.mean(image_stack, axis=0, dtype=np.uint16)` as used in
`ImageProjector.perform_projection` (line 106): numpy accumulates the axis-0
sum in the requested uint16 dtype (wrapping at 2^16 on every addition) and then
divides by the slice count in place with an unsafe cast back to uint16, which
truncates the quotient toward zero. -/
def meanPlane (image_stack : Volume) : Plane :=
  (List.range (image_stack.getD 0 []).length).map (fun y =>
    (List.range ((image_stack.getD 0 []).getD 0 []).length).map (fun x =>
      (pixelColumn image_stack y x).foldl u16add 0 / image_stack.length))

/-- Embedding of `np.max(image_stack, axis=0)` as used in
`ImageProjector.perform_projection` (line 108): element-wise maximum across
the depth axis, dtype unchanged. -/
def maxPlane (image_stack : Volume) : Plane :=
  (List.range (image_stack.getD 0 []).length).map (fun y =>
    (List.range ((image_stack.getD 0 []).getD 0 []).length).map (fun x =>
      (pixelColumn image_stack y x).foldl max 0))

/-- Embedding of `ImageProjector.perform_projection` (lines 95-110).  The
Python method tests `'mean'` first, then `'max'`, and raises
`ValueError(f"Unsupported projection type: ...")` otherwise; the raise is the
`Except.error` case. -/
def perform_projection (projection_type : String) (image_stack : Volume) :
    Except String Plane :=
  if projection_type = "mean" then Except.ok (meanPlane image_stack)
  else if projection_type = "max" then Except.ok (maxPlane image_stack)
  else Except.error ("Unsupported projection type: " ++ projection_type)

/-- Helper: folding wrapping uint16 addition from a reduced seed computes the
true sum modulo 2^16. -/
theorem foldl_u16add_eq (l : List ℕ) :
    ∀ a : ℕ, l.foldl u16add (a % 65536) = (a + l.sum) % 65536 := by
  induction l with
  | nil => intro a; simp [List.foldl]
  | cons x xs ih =>
      intro a
      have hstep : u16add (a % 65536) x = (a + x) % 65536 := by
        unfold u16add
        rw [Nat.mod_add_mod]
      calc (x :: xs).foldl u16add (a % 65536)
          = xs.foldl u16add (u16add (a % 65536) x) := by rfl
        _ = xs.foldl u16add ((a + x) % 65536) := by rw [hstep]
        _ = ((a + x) + xs.sum) % 65536 := ih (a + x)
        _ = (a + (x :: xs).sum) % 65536 := by rw [List.sum_cons]; ring_nf

/-- Helper: the uint16 accumulation of a column equals its sum modulo 2^16. -/
theorem foldl_u16add_zero (l : List ℕ) : l.foldl u16add 0 = l.sum % 65536 := by
  have h := foldl_u16add_eq l 0
  simpa using h

/-- Helper: indexing a list built with `map` over `range`. -/
theorem getD_map_range {α : Type} (n : ℕ) (f : ℕ → α) (d : α) (y : ℕ)
    (hy : y < n) : ((List.range n).map f).getD y d = f y := by
  rw [List.getD_eq_getElem _ _ (by simpa using hy)]
  simp

/-- Helper: the `(y, x)` entry of the mean projection is the truncated
quotient of the wrapped column sum by the slice count. -/
theorem meanPlane_entry (image_stack : Volume) (y x : ℕ)
    (hy : y < (image_stack.getD 0 []).length)
    (hx : x < ((image_stack.getD 0 []).getD 0 []).length) :
    ((meanPlane image_stack).getD y []).getD x 0 =
      (pixelColumn image_stack y x).sum % 65536 / image_stack.length := by
  unfold meanPlane
  rw [getD_map_range _ _ _ _ hy, getD_map_range _ _ _ _ hx, foldl_u16add_zero]

/-- Counterexample to claim C7 as stated: on the 2-slice stack whose single
pixel column is `[40000, 40000]`, the mean rule yields `7232`
(`80000 % 65536 = 14464`, then `14464 / 2`), not the truncated true mean
`40000`: the uint16 accumulation overflows. -/
theorem claim_mean_truncation_counterexample :
    perform_projection "mean" [[[40000]], [[40000]]] = Except.ok [[7232]] ∧
    (40000 + 40000) / 2 = 40000 ∧ (7232 : ℕ) ≠ 40000 := by
  refine ⟨rfl, by decide, by decide⟩

/-- Claim C7 (amended): for a sub-stack of non-negative intensities whose
column sum at pixel `(y, x)` does not exceed 65535, the mean rule returns the
per-pixel arithmetic mean truncated (fractional part discarded) into the
16-bit domain; in particular a 2-slice stack with values `[3, 4]` at a pixel
yields `3`. -/
theorem claim_mean_truncated (image_stack : Volume) (y x : ℕ)
    (hZ : 1 ≤ image_stack.length)
    (hy : y < (image_stack.getD 0 []).length)
    (hx : x < ((image_stack.getD 0 []).getD 0 []).length)
    (hfit : (pixelColumn image_stack y x).sum ≤ 65535) :
    (∃ plane, perform_projection "mean" image_stack = Except.ok plane ∧
      (plane.getD y []).getD x 0 =
        (pixelColumn image_stack y x).sum / image_stack.length) ∧
    perform_projection "mean" [[[3]], [[4]]] = Except.ok [[3]] := by
  refine ⟨⟨meanPlane image_stack, rfl, ?_⟩, rfl⟩
  rw [meanPlane_entry image_stack y x hy hx,
    Nat.mod_eq_of_lt (by omega : (pixelColumn image_stack y x).sum < 65536)]

/-- Witness for C7 (amended) on the stack `[[[3]], [[4]]]` at pixel `(0, 0)`. -/
theorem claim_mean_truncated_witness :
    1 ≤ ([[[3]], [[4]]] : Volume).length ∧
    0 < (([[[3]], [[4]]] : Volume).getD 0 []).length ∧
    0 < ((([[[3]], [[4]]] : Volume).getD 0 []).getD 0 []).length ∧
    (pixelColumn [[[3]], [[4]]] 0 0).sum ≤ 65535 ∧
    ((∃ plane, perform_projection "mean" [[[3]], [[4]]] = Except.ok plane ∧
      (plane.getD 0 []).getD 0 0 =
        (pixelColumn [[[3]], [[4]]] 0 0).sum / ([[[3]], [[4]]] : Volume).length) ∧
     perform_projection "mean" [[[3]], [[4]]] = Except.ok [[3]]) :=
  ⟨by decide, by decide, by decide, by decide,
    claim_mean_truncated [[[3]], [[4]]] 0 0 (by decide) (by decide) (by decide)
      (by decide)⟩

/-- Claim C10: under the mean rule the per-pixel sum is accumulated in
unsigned 16-bit arithmetic before the division: whenever the column sum at
`(y, x)` exceeds 65535, the output pixel is the truncated quotient of
(sum mod 2^16) by the slice count. -/
theorem claim_mean_overflow (image_stack : Volume) (y x : ℕ)
    (hZ : 1 ≤ image_stack.length)
    (hy : y < (image_stack.getD 0 []).length)
    (hx : x < ((image_stack.getD 0 []).getD 0 []).length)
    (hover : 65535 < (pixelColumn image_stack y x).sum) :
    ∃ plane, perform_projection "mean" image_stack = Except.ok plane ∧
      (plane.getD y []).getD x 0 =
        (pixelColumn image_stack y x).sum % 65536 / image_stack.length :=
  ⟨meanPlane image_stack, rfl, meanPlane_entry image_stack y x hy hx⟩

/-- Witness for C10 on the stack `[[[40000]], [[40000]]]` at pixel `(0, 0)`,
whose column sum 80000 overflows the 16-bit accumulator. -/
theorem claim_mean_overflow_witness :
    1 ≤ ([[[40000]], [[40000]]] : Volume).length ∧
    0 < (([[[40000]], [[40000]]] : Volume).getD 0 []).length ∧
    0 < ((([[[40000]], [[40000]]] : Volume).getD 0 []).getD 0 []).length ∧
    65535 < (pixelColumn [[[40000]], [[40000]]] 0 0).sum ∧
    (∃ plane, perform_projection "mean" [[[40000]], [[40000]]] = Except.ok plane ∧
      (plane.getD 0 []).getD 0 0 =
        (pixelColumn [[[40000]], [[40000]]] 0 0).sum % 65536 /
          ([[[40000]], [[40000]]] : Volume).length) :=
  ⟨by decide, by decide, by decide, by decide,
    claim_mean_overflow [[[40000]], [[40000]]] 0 0 (by decide) (by decide)
      (by decide) (by decide)⟩

/-- Mean of a list of rationals (the flattened `(Y, X)` plane of one slice). -/
def qmean (xs : List ℚ) : ℚ := xs.sum / (xs.length : ℚ)

/-- Population variance (numpy `std` with `ddof = 0` squared): the mean of the
squared deviations from the mean.  `image.std(axis=(1, 2))` at one depth index
is the square root of this value. -/
def popVar (xs : List ℚ) : ℚ :=
  ((xs.map (fun v => (v - qmean xs) ^ 2)).sum) / (xs.length : ℚ)

/-- The focus score of one slice: the population variance of its intensities
over the `(Y, X)` plane.  The source scores a slice by its standard deviation
`Real.sqrt (sliceScore s)`; the square root is strictly monotone on the
non-negative variances, so both orderings agree. -/
def sliceScore (s : Plane) : ℚ := popVar ((s.flatten).map (fun n => (n : ℚ)))

/-- The per-depth focus scores of a volume: `image.std(axis=(1, 2))` squared
(z-projection_v2.py, line 64). -/
def focusScores (image : Volume) : List ℚ := image.map sliceScore

/-- First-occurrence argmax, the semantics of `np.argmax` (line 66): returns
the pair (maximum value, first index attaining it).  Junk `(0, 0)` on the
empty list, which the source never passes. -/
def argmaxVI : List ℚ → ℚ × ℕ
  | [] => (0, 0)
  | [x] => (x, 0)
  | x :: y :: ys =>
      if x < (argmaxVI (y :: ys)).1 then
        ((argmaxVI (y :: ys)).1, (argmaxVI (y :: ys)).2 + 1)
      else (x, 0)

/-- Embedding of `ImageProjector.get_focused_z_slice` (lines 52-67): the
per-slice scores together with the first index of maximal score. -/
def get_focused_z_slice (image : Volume) : List ℚ × ℕ :=
  (focusScores image, (argmaxVI (focusScores image)).2)

/-- Helper: on a nonempty list the argmax index is in range. -/
theorem argmaxVI_snd_lt (l : List ℚ) (h : l ≠ []) :
    (argmaxVI l).2 < l.length := by
  induction l with
  | nil => exact absurd rfl h
  | cons x xs ih =>
      cases xs with
      | nil => simp [argmaxVI]
      | cons y ys =>
          have ih2 := ih (by simp)
          simp only [argmaxVI]
          split_ifs
          · simpa using Nat.succ_lt_succ ih2
          · simp

/-- Helper: the argmax index points at the maximum value. -/
theorem argmaxVI_getD (l : List ℚ) (h : l ≠ []) :
    l.getD (argmaxVI l).2 0 = (argmaxVI l).1 := by
  induction l with
  | nil => exact absurd rfl h
  | cons x xs ih =>
      cases xs with
      | nil => simp [argmaxVI]
      | cons y ys =>
          have ih2 := ih (by simp)
          simp only [argmaxVI]
          split_ifs
          · simpa using ih2
          · simp

/-- Helper: every in-range element is bounded by the argmax value. -/
theorem argmaxVI_le (l : List ℚ) :
    ∀ j, j < l.length → l.getD j 0 ≤ (argmaxVI l).1 := by
  induction l with
  | nil => intro j hj; simp at hj
  | cons x xs ih =>
      cases xs with
      | nil =>
          intro j hj
          cases j with
          | zero => simp [argmaxVI]
          | succ k => simp at hj
      | cons y ys =>
          intro j hj
          simp only [argmaxVI]
          split_ifs with hcmp
          · cases j with
            | zero => simpa using le_of_lt hcmp
            | succ k =>
                have hk : k < (y :: ys).length := by simpa using hj
                simpa using ih k hk
          · cases j with
            | zero => simp
            | succ k =>
                have hk : k < (y :: ys).length := by simpa using hj
                have := ih k hk
                have hxle : (argmaxVI (y :: ys)).1 ≤ x := le_of_not_lt hcmp
                simp only [List.getD_cons_succ]
                exact le_trans this hxle

/-- Helper: every element strictly before the argmax index is strictly below
the maximum (first-occurrence property). -/
theorem argmaxVI_first (l : List ℚ) :
    ∀ j, j < (argmaxVI l).2 → l.getD j 0 < (argmaxVI l).1 := by
  induction l with
  | nil => intro j hj; simp [argmaxVI] at hj
  | cons x xs ih =>
      cases xs with
      | nil => intro j hj; simp [argmaxVI] at hj
      | cons y ys =>
          intro j hj
          simp only [argmaxVI] at hj ⊢
          split_ifs with hcmp
          · cases j with
            | zero => simpa using hcmp
            | succ k =>
                rw [if_pos hcmp] at hj
                have hk : k < (argmaxVI (y :: ys)).2 := by simpa using hj
                simpa using ih k hk
          · rw [if_neg hcmp] at hj
            simp at hj

/-- Helper: population variance is non-negative. -/
theorem popVar_nonneg (xs : List ℚ) : 0 ≤ popVar xs := by
  unfold popVar
  apply div_nonneg
  · apply List.sum_nonneg
    intro a ha
    obtain ⟨v, hv, rfl⟩ := List.mem_map.mp ha
    exact sq_nonneg _
  · exact_mod_cast Nat.zero_le _

/-- Helper: every focus score read with a default is non-negative. -/
theorem focusScores_getD_nonneg (image : Volume) (j : ℕ) :
    0 ≤ (focusScores image).getD j 0 := by
  by_cases hj : j < (focusScores image).length
  · rw [List.getD_eq_getElem _ _ hj]
    have hmem : (focusScores image)[j] ∈ focusScores image := List.getElem_mem hj
    obtain ⟨s, hs, heq⟩ := List.mem_map.mp hmem
    rw [← heq]
    exact popVar_nonneg _
  · rw [List.getD_eq_default _ _ (le_of_not_lt hj)]

/-- Claim C4: for every volume with `Z ≥ 1`, `Y ≥ 1`, `X ≥ 1`,
`get_focused_z_slice` returns an index in `[0, Z)` that is the first index
attaining the maximum of the per-slice standard-deviation scores (the standard
deviation of slice `j` is `Real.sqrt` of its variance score; earlier indices
score strictly lower, so ties resolve to the first occurring maximum). -/
theorem claim_focus_first_argmax (image : Volume)
    (hZ : 1 ≤ image.length)
    (hY : ∀ s ∈ image, 1 ≤ s.length)
    (hX : ∀ s ∈ image, ∀ r ∈ s, 1 ≤ r.length) :
    (get_focused_z_slice image).2 < image.length ∧
    (∀ j, j < image.length →
      Real.sqrt (((get_focused_z_slice image).1.getD j 0 : ℚ) : ℝ) ≤
        Real.sqrt
          (((get_focused_z_slice image).1.getD (get_focused_z_slice image).2 0 : ℚ) : ℝ)) ∧
    (∀ j, j < (get_focused_z_slice image).2 →
      Real.sqrt (((get_focused_z_slice image).1.getD j 0 : ℚ) : ℝ) <
        Real.sqrt
          (((get_focused_z_slice image).1.getD (get_focused_z_slice image).2 0 : ℚ) : ℝ)) := by
  simp only [get_focused_z_slice]
  have hlen : (focusScores image).length = image.length := List.length_map _ _
  have hne : focusScores image ≠ [] := by
    intro hcon
    rw [hcon] at hlen
    simp only [List.length_nil] at hlen
    omega
  have hbest := argmaxVI_snd_lt (focusScores image) hne
  have hmax := argmaxVI_getD (focusScores image) hne
  refine ⟨by omega, ?_, ?_⟩
  · intro j hj
    have h1 : (focusScores image).getD j 0 ≤
        (focusScores image).getD (argmaxVI (focusScores image)).2 0 := by
      rw [hmax]
      exact argmaxVI_le _ j (by omega)
    exact Real.sqrt_le_sqrt (by exact_mod_cast h1)
  · intro j hj
    have h1 : (focusScores image).getD j 0 <
        (focusScores image).getD (argmaxVI (focusScores image)).2 0 := by
      rw [hmax]
      exact argmaxVI_first _ j hj
    exact Real.sqrt_lt_sqrt
      (by exact_mod_cast focusScores_getD_nonneg image j) (by exact_mod_cast h1)

/-- Witness for C4 on a 3-slice volume whose middle slice has the only
non-zero contrast. -/
theorem claim_focus_first_argmax_witness :
    1 ≤ ([[[0, 0], [0, 0]], [[0, 10], [10, 0]], [[1, 1], [1, 1]]] : Volume).length ∧
    (∀ s ∈ ([[[0, 0], [0, 0]], [[0, 10], [10, 0]], [[1, 1], [1, 1]]] : Volume),
      1 ≤ s.length) ∧
    (∀ s ∈ ([[[0, 0], [0, 0]], [[0, 10], [10, 0]], [[1, 1], [1, 1]]] : Volume),
      ∀ r ∈ s, 1 ≤ r.length) ∧
    ((get_focused_z_slice [[[0, 0], [0, 0]], [[0, 10], [10, 0]], [[1, 1], [1, 1]]]).2 <
        ([[[0, 0], [0, 0]], [[0, 10], [10, 0]], [[1, 1], [1, 1]]] : Volume).length ∧
     (∀ j, j < ([[[0, 0], [0, 0]], [[0, 10], [10, 0]], [[1, 1], [1, 1]]] : Volume).length →
       Real.sqrt
           (((get_focused_z_slice
               [[[0, 0], [0, 0]], [[0, 10], [10, 0]], [[1, 1], [1, 1]]]).1.getD j 0 : ℚ) : ℝ) ≤
         Real.sqrt
           (((get_focused_z_slice
               [[[0, 0], [0, 0]], [[0, 10], [10, 0]], [[1, 1], [1, 1]]]).1.getD
             (get_focused_z_slice
               [[[0, 0], [0, 0]], [[0, 10], [10, 0]], [[1, 1], [1, 1]]]).2 0 : ℚ) : ℝ)) ∧
     (∀ j, j < (get_focused_z_slice
           [[[0, 0], [0, 0]], [[0, 10], [10, 0]], [[1, 1], [1, 1]]]).2 →
       Real.sqrt
           (((get_focused_z_slice
               [[[0, 0], [0, 0]], [[0, 10], [10, 0]], [[1, 1], [1, 1]]]).1.getD j 0 : ℚ) : ℝ) <
         Real.sqrt
           (((get_focused_z_slice
               [[[0, 0], [0, 0]], [[0, 10], [10, 0]], [[1, 1], [1, 1]]]).1.getD
             (get_focused_z_slice
               [[[0, 0], [0, 0]], [[0, 10], [10, 0]], [[1, 1], [1, 1]]]).2 0 : ℚ) : ℝ))) :=
  ⟨by decide, by decide, by decide,
    claim_focus_first_argmax [[[0, 0], [0, 0]], [[0, 10], [10, 0]], [[1, 1], [1, 1]]]
      (by decide) (by decide) (by decide)⟩

/-- The loop-local state of `ImageProjector.process_tiff_file` (lines 128-158):
the five parallel report lists and the growing stack of projected planes (the
initial `np.empty` placeholder plane, stripped again on line 161, is a source
artifact with no observable effect and is not carried). -/
structure LoopState where
  timepoints : List ℕ
  n_proj_z : List ℤ
  proj_types : List String
  start_z : List ℤ
  stop_z : List ℤ
  planes : List Plane

/-- The state before the first timepoint: five empty lists and no planes. -/
def initialLoopState : LoopState := ⟨[], [], [], [], [], []⟩

/-- One iteration of the timepoint loop of `process_tiff_file`
(lines 135-158) for timepoint `t`:

    img_tp = img.take(t, axis=0)
    _, best_z = self.get_focused_z_slice(img_tp)
    start, stop, n_slices = self.calculate_projection_range(best_z, shape[1])
    indices = range(start, stop)
    start_z.append(indices[0] + 1)
    stop_z.append(indices[-1] + 1)
    img_z_stack = img_tp.take(indices, axis=0)
    img_proj = self.perform_projection(img_z_stack)

`indices[0]` raises `IndexError` when `range(start, stop)` is empty, and an
unsupported projection type raises inside `perform_projection`; either raise
aborts the whole file (the surrounding `try`), so a raise is `Except.error`
and the per-file state is dropped.  `total_z` is `shape[1]`. -/
def stepTimepoint (z_range : ℤ) (projection_type : String) (total_z : ℤ)
    (img : Acquisition) (st : LoopState) (t : ℕ) : Except String LoopState :=
  let img_tp := img.getD t []
  let best_z : ℤ := ((get_focused_z_slice img_tp).2 : ℤ)
  let r := calculate_projection_range z_range best_z total_z
  if r.1 < r.2.1 then
    match perform_projection projection_type
        ((img_tp.drop r.1.toNat).take (r.2.1 - r.1).toNat) with
    | Except.error e => Except.error e
    | Except.ok img_proj =>
        Except.ok
          { timepoints := st.timepoints ++ [t + 1]
            n_proj_z := st.n_proj_z ++ [r.2.2]
            proj_types := st.proj_types ++ [projection_type]
            start_z := st.start_z ++ [r.1 + 1]
            stop_z := st.stop_z ++ [(r.2.1 - 1) + 1]
            planes := st.planes ++ [img_proj] }
  else Except.error "list index out of range"

/-- The whole timepoint loop `for t in range(shape[0])` of
`process_tiff_file`, short-circuiting at the first raise. -/
def processLoop (z_range : ℤ) (projection_type : String) (total_z : ℤ)
    (img : Acquisition) : Except String LoopState :=
  (List.range img.length).foldlM
    (stepTimepoint z_range projection_type total_z img) initialLoopState

/-- One sheet of the report: the five columns stored in
`self.report_data[file_path.stem]` (lines 169-175). -/
abbrev ReportEntry : Type :=
  List ℕ × List ℤ × List String × List ℤ × List ℤ

/-- Embedding of `ImageProjector.process_tiff_file` (lines 112-178) as a
transformer of the accumulated `self.report_data`: on success the file's
sheet is appended; the surrounding `try`/`except` turns any raise into a
no-op on the accumulated data (the handler only prints). -/
def process_tiff_file (z_range : ℤ) (projection_type : String)
    (file_stem : String) (img : Acquisition) (total_z : ℤ)
    (report_data : List (String × ReportEntry)) :
    List (String × ReportEntry) :=
  match processLoop z_range projection_type total_z img with
  | Except.ok st =>
      report_data ++
        [(file_stem, (st.timepoints, st.n_proj_z, st.proj_types, st.start_z,
          st.stop_z))]
  | Except.error _ => report_data

/-- Helper: the mean rule always succeeds. -/
theorem perform_projection_mean (image_stack : Volume) :
    perform_projection "mean" image_stack = Except.ok (meanPlane image_stack) :=
  rfl

/-- Helper: the max rule always succeeds. -/
theorem perform_projection_max (image_stack : Volume) :
    perform_projection "max" image_stack = Except.ok (maxPlane image_stack) :=
  rfl

/-- Helper: the best-focus index of a nonempty volume is below its depth. -/
theorem best_z_lt_depth (img_tp : Volume) (hne : img_tp ≠ []) :
    ((get_focused_z_slice img_tp).2 : ℤ) < (img_tp.length : ℤ) := by
  have hlen : (focusScores img_tp).length = img_tp.length := List.length_map _ _
  have hne2 : focusScores img_tp ≠ [] := by
    intro hcon
    apply hne
    have h0 : (focusScores img_tp).length = 0 := by rw [hcon]; rfl
    rw [hlen] at h0
    exact List.length_eq_zero.mp h0
  have := argmaxVI_snd_lt (focusScores img_tp) hne2
  simp only [get_focused_z_slice]
  exact_mod_cast (by omega : (argmaxVI (focusScores img_tp)).2 < img_tp.length)

/-- Claim C6: for every timepoint `t` the loop of `process_tiff_file` appends
exactly the audit entry `{t+1, 2*z_range+1, rule, start+1, stop}`: the
timepoint and start index get a `+1` adjustment, the appended stop equals the
0-based-exclusive `stop` unchanged (`indices[-1] + 1 = (stop - 1) + 1`), and
the appended slice count is the requested window size `2*z_range+1` even when
the realized window `stop - start` is shorter. -/
theorem claim_audit_record_entry (z_range : ℤ) (projection_type : String)
    (img : Acquisition) (st : LoopState) (t : ℕ)
    (hrule : projection_type = "max" ∨ projection_type = "mean")
    (hz : 0 ≤ z_range) (hne : img.getD t [] ≠ []) :
    ∃ img_proj,
      stepTimepoint z_range projection_type ((img.getD t []).length : ℤ) img st t =
        Except.ok
          { timepoints := st.timepoints ++ [t + 1]
            n_proj_z := st.n_proj_z ++ [2 * z_range + 1]
            proj_types := st.proj_types ++ [projection_type]
            start_z := st.start_z ++
              [(calculate_projection_range z_range
                  ((get_focused_z_slice (img.getD t [])).2 : ℤ)
                  ((img.getD t []).length : ℤ)).1 + 1]
            stop_z := st.stop_z ++
              [(calculate_projection_range z_range
                  ((get_focused_z_slice (img.getD t [])).2 : ℤ)
                  ((img.getD t []).length : ℤ)).2.1]
            planes := st.planes ++ [img_proj] } := by
  have hbz : (0 : ℤ) ≤ ((get_focused_z_slice (img.getD t [])).2 : ℤ) :=
    Int.ofNat_nonneg _
  have hlt := best_z_lt_depth (img.getD t []) hne
  have hb := calcRange_bounds z_range ((get_focused_z_slice (img.getD t [])).2 : ℤ)
    ((img.getD t []).length : ℤ) hz hbz hlt
  have hn := calcRange_n_slices z_range ((get_focused_z_slice (img.getD t [])).2 : ℤ)
    ((img.getD t []).length : ℤ)
  have hstop : ((calculate_projection_range z_range
      ((get_focused_z_slice (img.getD t [])).2 : ℤ)
      ((img.getD t []).length : ℤ)).2.1 - 1) + 1 =
      (calculate_projection_range z_range
        ((get_focused_z_slice (img.getD t [])).2 : ℤ)
        ((img.getD t []).length : ℤ)).2.1 := by ring
  rcases hrule with h | h <;> subst h
  · refine ⟨maxPlane (((img.getD t []).drop
      (calculate_projection_range z_range
        ((get_focused_z_slice (img.getD t [])).2 : ℤ)
        ((img.getD t []).length : ℤ)).1.toNat).take
      ((calculate_projection_range z_range
        ((get_focused_z_slice (img.getD t [])).2 : ℤ)
        ((img.getD t []).length : ℤ)).2.1 -
        (calculate_projection_range z_range
          ((get_focused_z_slice (img.getD t [])).2 : ℤ)
          ((img.getD t []).length : ℤ)).1).toNat), ?_⟩
    simp only [stepTimepoint]
    rw [if_pos hb.2.1, perform_projection_max, hn, hstop]
  · refine ⟨meanPlane (((img.getD t []).drop
      (calculate_projection_range z_range
        ((get_focused_z_slice (img.getD t [])).2 : ℤ)
        ((img.getD t []).length : ℤ)).1.toNat).take
      ((calculate_projection_range z_range
        ((get_focused_z_slice (img.getD t [])).2 : ℤ)
        ((img.getD t []).length : ℤ)).2.1 -
        (calculate_projection_range z_range
          ((get_focused_z_slice (img.getD t [])).2 : ℤ)
          ((img.getD t []).length : ℤ)).1).toNat), ?_⟩
    simp only [stepTimepoint]
    rw [if_pos hb.2.1, perform_projection_mean, hn, hstop]

/-- A small concrete acquisition (T = 1, Z = 3, Y = 2, X = 2) used to
instantiate hypothesis-bearing theorems. -/
def sampleAcq : Acquisition :=
  [[[[0, 0], [0, 0]], [[0, 10], [10, 0]], [[1, 1], [1, 1]]]]

/-- Witness for C6 at `z_range = 1`, rule `"max"`, timepoint 0 of
`sampleAcq`, starting from the empty loop state. -/
theorem claim_audit_record_entry_witness :
    (("max" : String) = "max" ∨ ("max" : String) = "mean") ∧
    (0 : ℤ) ≤ 1 ∧ sampleAcq.getD 0 [] ≠ [] ∧
    (∃ img_proj,
      stepTimepoint 1 "max" ((sampleAcq.getD 0 []).length : ℤ) sampleAcq
          initialLoopState 0 =
        Except.ok
          { timepoints := initialLoopState.timepoints ++ [0 + 1]
            n_proj_z := initialLoopState.n_proj_z ++ [2 * 1 + 1]
            proj_types := initialLoopState.proj_types ++ ["max"]
            start_z := initialLoopState.start_z ++
              [(calculate_projection_range 1
                  ((get_focused_z_slice (sampleAcq.getD 0 [])).2 : ℤ)
                  ((sampleAcq.getD 0 []).length : ℤ)).1 + 1]
            stop_z := initialLoopState.stop_z ++
              [(calculate_projection_range 1
                  ((get_focused_z_slice (sampleAcq.getD 0 [])).2 : ℤ)
                  ((sampleAcq.getD 0 []).length : ℤ)).2.1]
            planes := initialLoopState.planes ++ [img_proj] }) :=
  ⟨Or.inl rfl, by decide, by decide,
    claim_audit_record_entry 1 "max" sampleAcq initialLoopState 0
      (Or.inl rfl) (by decide) (by decide)⟩

/-- Claim C8: for every rule other than `"max"` and `"mean"`,
`perform_projection` fails with the `Unsupported projection type` error (it is
not silently defaulted to either supported rule), and processing a file under
such a rule leaves the previously accumulated report data unchanged: the
raise aborts the file and the accumulator is returned as it was. -/
theorem claim_unsupported_rule (projection_type : String)
    (h1 : projection_type ≠ "max") (h2 : projection_type ≠ "mean")
    (image_stack : Volume) (z_range total_z : ℤ) (file_stem : String)
    (img : Acquisition) (hT : img ≠ [])
    (report_data : List (String × ReportEntry)) :
    perform_projection projection_type image_stack =
      Except.error ("Unsupported projection type: " ++ projection_type) ∧
    process_tiff_file z_range projection_type file_stem img total_z
      report_data = report_data := by
  have hfail : ∀ s : Volume, perform_projection projection_type s =
      Except.error ("Unsupported projection type: " ++ projection_type) := by
    intro s
    unfold perform_projection
    rw [if_neg h2, if_neg h1]
  refine ⟨hfail image_stack, ?_⟩
  obtain ⟨n, hn⟩ : ∃ n, img.length = n + 1 := by
    cases img with
    | nil => exact absurd rfl hT
    | cons v vs => exact ⟨vs.length, rfl⟩
  have hstep : ∃ e, stepTimepoint z_range projection_type total_z img
      initialLoopState 0 = Except.error e := by
    simp only [stepTimepoint]
    split_ifs with hlt
    · rw [hfail]
      exact ⟨_, rfl⟩
    · exact ⟨_, rfl⟩
  obtain ⟨e, he⟩ := hstep
  unfold process_tiff_file processLoop
  rw [hn, List.range_succ_eq_map, List.foldlM_cons, he]
  rfl

/-- Witness for C8 with the rule `"median"` on `sampleAcq`. -/
theorem claim_unsupported_rule_witness :
    ("median" : String) ≠ "max" ∧ ("median" : String) ≠ "mean" ∧
    sampleAcq ≠ [] ∧
    (perform_projection "median" [[[5]]] =
      Except.error ("Unsupported projection type: " ++ "median") ∧
     process_tiff_file 1 "median" "file" sampleAcq 3 [] = []) :=
  ⟨by decide, by decide, by decide,
    claim_unsupported_rule "median" (by decide) (by decide) [[[5]]] 1 3 "file"
      sampleAcq (by decide) []⟩
